import Mathlib

/-!
Shallow embedding of the storage-node validation core of `safe_network`
(`sn_node/src/put_validation.rs` and `sn_client/src/file_apis.rs`).

Machine integers (`u64` token amounts, `usize` indices and lengths) are
modelled as `Nat`; byte strings (`Bytes`, `Hash`, signatures) as `List Nat`.
External collaborators that live outside the embedded sources (the DBC
cryptographic primitives of `sn_dbc`, the Merkle audit-trail checker of
`sn_transfers`, the CRDT merge of `sn_registers`, and the network/DHT layer)
are abstracted as oracle functions collected in an `Env` record; the
functions of `put_validation.rs` are translated over these oracles.
-/

namespace SafeNetwork

/-- 256-bit content-addressed identifier (`XorName`), modelled abstractly. -/
abbrev XorName := Nat

/-- DBC identifier (`DbcId`), modelled abstractly. -/
abbrev DbcId := Nat

/-- Raw bytes (`Bytes`, `Hash` values, signatures). -/
abbrev Bytes := List Nat

/-- `sn_dbc::FeeOutput`: fee output of a DBC transaction.  Its `is_free`
predicate lives in the external `sn_dbc` crate and is abstracted in `Env`. -/
structure FeeOutput where
  id : Bytes
  token : Nat
  root_hash : Bytes
deriving DecidableEq, Repr

/-- `sn_dbc::DbcTransaction`: inputs are identified by their `DbcId`
(`input.dbc_id()`); outputs are irrelevant to the validation core. -/
structure DbcTransaction where
  inputs : List DbcId
  outputs : List Nat
  fee : FeeOutput
deriving DecidableEq, Repr

/-- `sn_dbc::SignedSpend`: a witness that `dbc_id` was spent in `spent_tx`. -/
structure SignedSpend where
  dbc_id : DbcId
  spent_tx : DbcTransaction
  signature : Bytes
deriving DecidableEq, Repr

/-- `sn_protocol::messages::PaymentProof`. -/
structure PaymentProof where
  spent_ids : List DbcId
  audit_trail : List Bytes
  path : List Nat
deriving DecidableEq, Repr

/-- A content chunk: `name` is its content address, `value` its bytes. -/
structure Chunk where
  name : XorName
  value : Bytes
deriving DecidableEq, Repr

/-- `sn_protocol::storage::ChunkWithPayment`. -/
structure ChunkWithPayment where
  chunk : Chunk
  payment : Option PaymentProof
deriving DecidableEq, Repr

/-- `sn_registers::SignedRegister`, abstracted: `name` is its address name,
`data` stands for its CRDT content.  Verification and merge are oracles. -/
structure SignedRegister where
  name : XorName
  data : Nat
deriving DecidableEq, Repr

/-- `sn_protocol::storage::RecordKind`. -/
inductive RecordKind where
  | Chunk
  | DbcSpend
  | Register
deriving DecidableEq, Repr

/-- The deserialized value of a stored record, together with its header kind
(the constructor plays the role of the kind tag of the record header). -/
inductive RecordValue where
  | chunkV (c : ChunkWithPayment)
  | spendsV (s : List SignedSpend)
  | registerV (r : SignedRegister)
deriving DecidableEq, Repr

/-- The header kind carried by a record value. -/
def RecordValue.kind : RecordValue → RecordKind
  | .chunkV _ => RecordKind.Chunk
  | .spendsV _ => RecordKind.DbcSpend
  | .registerV _ => RecordKind.Register

/-- `libp2p::kad::Record`: `RecordKey::new` over a 256-bit name is injective,
so the key is modelled as the `XorName` itself. -/
structure Record where
  key : XorName
  value : RecordValue
deriving DecidableEq, Repr

/-- `sn_protocol::messages::CmdOk`. -/
inductive CmdOk where
  | StoredSuccessfully
  | DataAlreadyPresent
deriving DecidableEq, Repr

/-- `sn_protocol::error::Error`, restricted to the variants reachable from
the embedded validation functions. -/
inductive ProtocolError where
  | RecordKeyMismatch
  | RecordKindMismatch (expected : RecordKind)
  | ChunkNotStored (name : XorName)
  | RegisterNotStored (name : XorName)
  | SpendNotStored (reason : String)
  | SpendNotFound (addr : XorName)
  | InvalidRegister (addr : XorName)
  | InvalidSpendSignature (reason : String)
  | InvalidSpendParents (reason : String)
  | InvalidPaymentProof (addr_name : XorName) (reason : String)
  | PaymentProofTxMismatch (addr_name : XorName)
  | PaymentProofWithoutInputs (addr_name : XorName)
  | PaymentProofInvalidFeeOutput (id : Bytes)
  | PaymentProofInsufficientAmount (paid : Nat) (expected : Nat)
  | DoubleSpendAttempt (one : SignedSpend) (two : SignedSpend)
  | MaxNumberOfSpendsExceeded
deriving DecidableEq, Repr

/-- The local record store: an association list from record key to stored
value; `get` reads the most recent binding, `put` overwrites. -/
abbrev Store := List (XorName × RecordValue)

/-- Look a key up in the local record store. -/
def Store.get : Store → XorName → Option RecordValue
  | [], _ => none
  | (k, v) :: rest, key => if k = key then some v else Store.get rest key

/-- `put_local_record`: store a record under its key (overwriting). -/
def Store.put (s : Store) (key : XorName) (v : RecordValue) : Store :=
  (key, v) :: s

/-- Oracles for the external collaborators of `put_validation.rs`. -/
structure Env where
  /-- `sn_dbc::Hash::hash` over raw bytes. -/
  hash : Bytes → Bytes
  /-- `DbcId::to_bytes`. -/
  dbcIdBytes : DbcId → Bytes
  /-- `FeeOutput::is_free` (external `sn_dbc` predicate). -/
  isFree : FeeOutput → Bool
  /-- `SignedSpend::spent_tx_hash` (hash of the spent transaction). -/
  txHash : DbcTransaction → Bytes
  /-- `SignedSpend::verify(spent_tx_hash)`: signature check. -/
  verifySpend : SignedSpend → Bool
  /-- `SignedRegister::verify`: authenticity check. -/
  verifyRegister : SignedRegister → Bool
  /-- `SignedRegister::verified_merge`: merge the incoming register (second
  argument) into the local copy (first argument). -/
  mergeRegister : SignedRegister → SignedRegister → Except ProtocolError SignedRegister
  /-- `DbcAddress::from_dbc_id(id).name()`. -/
  dbcAddrName : DbcId → XorName
  /-- `sn_transfers::payment_proof::validate_payment_proof`: checks the
  Merkle audit trail and path against the address name and root hash,
  returning the leaf index on success. -/
  vpp : XorName → Bytes → List Bytes → List Nat → Except String Nat
  /-- `get_aggregated_spends_from_peers`: network query for the already
  aggregated spends of a `DbcId`; `none` models a network failure, which
  the callers map to `SpendNotFound` (spec section 5: a timeout is treated
  as spend-not-found). -/
  netSpends : DbcId → Option (List SignedSpend)
  /-- `check_parent_spends`: `some msg` models a failed parent check. -/
  checkParents : SignedSpend → Option String

/-- The max length of `Vec<SignedSpend>` that is permitted. -/
def MAX_SIGNED_SPENDS_LENGTH : Nat := 2

/-- `verify_fee_output_id` (`put_validation.rs`): if the transaction has a
non-free fee output, its id must be the hash of the fee root hash followed
by the concatenated byte encodings of the input DBC ids. -/
def verify_fee_output_id (env : Env) (spent_tx : DbcTransaction) :
    Except ProtocolError Unit :=
  let fee := spent_tx.fee
  if ¬ env.isFree fee then
    let fee_id_bytes := fee.root_hash ++ (spent_tx.inputs.map env.dbcIdBytes).flatten
    if fee.id ≠ env.hash fee_id_bytes then
      .error (.PaymentProofInvalidFeeOutput fee.id)
    else
      .ok ()
  else
    .ok ()

/-- `verify_fee_output_and_proof` (`put_validation.rs`): fee-output id check,
Merkle audit-trail validation, then the amount check `paid > leaf_index`. -/
def verify_fee_output_and_proof (env : Env) (addr_name : XorName)
    (tx : DbcTransaction) (audit_trail : List Bytes) (path : List Nat) :
    Except ProtocolError Unit :=
  match verify_fee_output_id env tx with
  | .error e => .error e
  | .ok _ =>
    match env.vpp addr_name tx.fee.root_hash audit_trail path with
    | .error err => .error (.InvalidPaymentProof addr_name err)
    | .ok leaf_index =>
      let paid := tx.fee.token
      if paid ≤ leaf_index then
        .error (.PaymentProofInsufficientAmount paid (leaf_index + 1))
      else
        .ok ()

/-- Keep the first occurrence of each element, dropping later duplicates
(the observable content of collecting into a `HashSet`). -/
def dedupFirst {α : Type} [DecidableEq α] : List α → List α → List α
  | _, [] => []
  | seen, x :: xs =>
    if x ∈ seen then dedupFirst seen xs
    else x :: dedupFirst (x :: seen) xs

/-- Byte-string order used for the aggregator's deterministic tie-break. -/
def bytesLe : Bytes → Bytes → Bool
  | [], _ => true
  | _ :: _, [] => false
  | a :: as, b :: bs => if a < b then true else if b < a then false else bytesLe as bs

/-- Insert a spend into a list sorted by signature bytes. -/
def insertBySig (s : SignedSpend) : List SignedSpend → List SignedSpend
  | [] => [s]
  | t :: ts =>
    if bytesLe s.signature t.signature then s :: t :: ts
    else t :: insertBySig s ts

/-- Insertion sort by signature bytes. -/
def sortBySig : List SignedSpend → List SignedSpend
  | [] => []
  | s :: ss => insertBySig s (sortBySig ss)

/-- Modelled from the spec: `aggregate_spends` of `sn_node/src/spends.rs`
(not among the embedded sources).  Per spec section 4.2: keep only spends for
the given `dbc_id`, deduplicate, order deterministically by signature bytes;
if two witnesses disagree on `spent_tx_hash`, return exactly the first two
distinct-transaction witnesses, otherwise the deduplicated set capped at
`MAX_SIGNED_SPENDS = 2`. -/
def aggregate_spends (env : Env) (spends : List SignedSpend) (dbc_id : DbcId) :
    List SignedSpend :=
  let canonical := dedupFirst []
    (sortBySig (spends.filter (fun s => decide (s.dbc_id = dbc_id))))
  match canonical with
  | [] => []
  | a :: rest =>
    match rest.find? (fun s => decide (env.txHash s.spent_tx ≠ env.txHash a.spent_tx)) with
    | some b => [a, b]
    | none => a :: rest.take 1

/-- The `present_locally` block of `signed_spend_validation`
(`put_validation.rs`): when the key is held locally, load the stored record
(whose kind must be `DbcSpend`), drop incoming spends already represented
(`none` signals an unchanged local copy), and otherwise continue with the
local spends chained with the newly seen ones. -/
def merge_with_local_spends (env : Env) (store : Store)
    (signed_spends : List SignedSpend) (dbc_id : DbcId)
    (present_locally : Bool) :
    Except ProtocolError (Option (List SignedSpend)) :=
  if present_locally then
    match Store.get store (env.dbcAddrName dbc_id) with
    | none => .error (.SpendNotFound (env.dbcAddrName dbc_id))
    | some (RecordValue.spendsV local_signed_spends) =>
      if (dedupFirst []
          (signed_spends.filter (fun s => decide (s ∉ local_signed_spends)))).isEmpty then
        .ok none
      else
        .ok (some (local_signed_spends ++
          dedupFirst []
            (signed_spends.filter (fun s => decide (s ∉ local_signed_spends)))))
    | some _ => .error (.RecordKindMismatch RecordKind.DbcSpend)
  else .ok (some signed_spends)

/-- The length dispatch of `signed_spend_validation` (`put_validation.rs`):
`0` spends is an error; a single spend undergoes signature, fee-output-id
and parent checks and is aggregated with the network's witnesses; `≥ 2`
spends are a detected double spend and are aggregated directly. -/
def dispatch_spends (env : Env) (dbc_id : DbcId)
    (spends : List SignedSpend) :
    Except ProtocolError (Option (List SignedSpend)) :=
  match spends with
  | [] => .error (.SpendNotStored "No valid Spend found")
  | [signed_spend] =>
    if env.verifySpend signed_spend then
      match verify_fee_output_id env signed_spend.spent_tx with
      | .error e => .error e
      | .ok _ =>
        match env.checkParents signed_spend with
        | some e => .error (.InvalidSpendParents e)
        | none =>
          match env.netSpends dbc_id with
          | none => .error (.SpendNotFound (env.dbcAddrName dbc_id))
          | some net_spends =>
            .ok (some (aggregate_spends env (net_spends ++ [signed_spend]) dbc_id))
    else .error (.InvalidSpendSignature "while verifying spend")
  | _ => .ok (some (aggregate_spends env spends dbc_id))

/-- `signed_spend_validation` (`put_validation.rs`): merge with the local
copy when present, then dispatch on the effective number of spends. -/
def signed_spend_validation (env : Env) (store : Store)
    (signed_spends : List SignedSpend) (dbc_id : DbcId)
    (present_locally : Bool) :
    Except ProtocolError (Option (List SignedSpend)) :=
  match merge_with_local_spends env store signed_spends dbc_id present_locally with
  | .error e => .error e
  | .ok none => .ok none
  | .ok (some spends) => dispatch_spends env dbc_id spends

/-- `validate_and_store_spends` (`put_validation.rs`).  The returned pair is
the command outcome together with the local store after the call, making
writes (or their absence) observable. -/
def validate_and_store_spends (env : Env) (store : Store)
    (signed_spends : List SignedSpend) :
    (Except ProtocolError CmdOk) × Store :=
  if signed_spends.length > MAX_SIGNED_SPENDS_LENGTH then
    (.error .MaxNumberOfSpendsExceeded, store)
  else
    match signed_spends with
    | [] => (.error (.SpendNotStored "Spend was not provided"), store)
    | first :: elements =>
      if elements.all (fun spend => decide (spend.dbc_id = first.dbc_id)) then
        match signed_spend_validation env store (first :: elements) first.dbc_id
            ((Store.get store (env.dbcAddrName first.dbc_id)).isSome) with
        | .error e => (.error e, store)
        | .ok none => (.ok .DataAlreadyPresent, store)
        | .ok (some validated_spends) =>
          match validated_spends with
          | spend_one :: spend_two :: _ =>
            (.error (.DoubleSpendAttempt spend_one spend_two),
             Store.put store (env.dbcAddrName first.dbc_id)
               (RecordValue.spendsV validated_spends))
          | _ =>
            (.ok .StoredSuccessfully,
             Store.put store (env.dbcAddrName first.dbc_id)
               (RecordValue.spendsV validated_spends))
      else
        (.error (.SpendNotStored "The dbc_id of the provided Vec<SignedSpend> does not match"),
         store)

/-- The loop of `chunk_payment_validation` over the payment's spent ids:
fetch the aggregated witnesses of each input DBC and require a unique
common spent transaction. -/
def payment_tx_of_spent_ids (env : Env) (addr_name : XorName) :
    List DbcId → Option DbcTransaction →
    Except ProtocolError (Option DbcTransaction)
  | [], payment_tx => .ok payment_tx
  | dbc_id :: rest, payment_tx =>
    let addr := env.dbcAddrName dbc_id
    match env.netSpends dbc_id with
    | none => .error (.SpendNotFound addr)
    | some signed_spends =>
      match signed_spends with
      | [] => .error (.SpendNotFound addr)
      | [signed_spend] =>
        let spent_tx := signed_spend.spent_tx
        match payment_tx with
        | some tx =>
          if spent_tx ≠ tx then .error (.PaymentProofTxMismatch addr_name)
          else payment_tx_of_spent_ids env addr_name rest (some tx)
        | none => payment_tx_of_spent_ids env addr_name rest (some spent_tx)
      | spend_one :: spend_two :: _ =>
        .error (.DoubleSpendAttempt spend_one spend_two)

/-- `chunk_payment_validation` (`put_validation.rs`): when a payment proof is
attached, resolve its input spends to a unique payment transaction and verify
the fee output and the Merkle proof against it; absent payment passes. -/
def chunk_payment_validation (env : Env) (chunk_with_payment : ChunkWithPayment) :
    Except ProtocolError Unit :=
  match chunk_with_payment.payment with
  | none => .ok ()
  | some pp =>
    let addr_name := chunk_with_payment.chunk.name
    match payment_tx_of_spent_ids env addr_name pp.spent_ids none with
    | .error e => .error e
    | .ok (some tx) =>
      verify_fee_output_and_proof env addr_name tx pp.audit_trail pp.path
    | .ok none => .error (.PaymentProofWithoutInputs addr_name)

/-- `validate_and_store_chunk` (`put_validation.rs`): short-circuit when the
key is already present, otherwise validate the payment and store. -/
def validate_and_store_chunk (env : Env) (store : Store)
    (chunk_with_payment : ChunkWithPayment) :
    (Except ProtocolError CmdOk) × Store :=
  let chunk_name := chunk_with_payment.chunk.name
  let key := chunk_name
  if (Store.get store key).isSome then
    (.ok .DataAlreadyPresent, store)
  else
    match chunk_payment_validation env chunk_with_payment with
    | .error e => (.error e, store)
    | .ok _ =>
      (.ok .StoredSuccessfully,
       Store.put store key (RecordValue.chunkV chunk_with_payment))

/-- `register_validation` (`put_validation.rs`): signature check, then a
verified merge with the local copy; `none` signals an unchanged local copy. -/
def register_validation (env : Env) (store : Store) (register : SignedRegister)
    (present_locally : Bool) :
    Except ProtocolError (Option SignedRegister) :=
  if env.verifyRegister register then
    if present_locally then
      match Store.get store register.name with
      | none => .error (.RegisterNotStored register.name)
      | some (RecordValue.registerV local_register) =>
        match env.mergeRegister local_register register with
        | .error e => .error e
        | .ok merged_register =>
          if merged_register = local_register then .ok none
          else .ok (some merged_register)
      | some _ => .error (.RecordKindMismatch RecordKind.Register)
    else .ok (some register)
  else .error (.InvalidRegister register.name)

/-- `validate_and_store_register` (`put_validation.rs`). -/
def validate_and_store_register (env : Env) (store : Store)
    (register : SignedRegister) :
    (Except ProtocolError CmdOk) × Store :=
  let key := register.name
  let present_locally := (Store.get store key).isSome
  match register_validation env store register present_locally with
  | .error e => (.error e, store)
  | .ok none => (.ok .DataAlreadyPresent, store)
  | .ok (some updated_register) =>
    (.ok .StoredSuccessfully,
     Store.put store key (RecordValue.registerV updated_register))

/-- `validate_and_store_record` (`put_validation.rs`): dispatch on the record
kind, enforcing key/payload coherence first. -/
def validate_and_store_record (env : Env) (store : Store) (record : Record) :
    (Except ProtocolError CmdOk) × Store :=
  match record.value with
  | .chunkV chunk_with_payment =>
    if record.key ≠ chunk_with_payment.chunk.name then
      (.error .RecordKeyMismatch, store)
    else
      validate_and_store_chunk env store chunk_with_payment
  | .spendsV signed_spends =>
    if ¬ signed_spends.all
        (fun spend => decide (record.key = env.dbcAddrName spend.dbc_id)) then
      (.error .RecordKeyMismatch, store)
    else
      validate_and_store_spends env store signed_spends
  | .registerV register =>
    if record.key ≠ register.name then
      (.error .RecordKeyMismatch, store)
    else
      validate_and_store_register env store register

/-! Client file APIs (`sn_client/src/file_apis.rs`).  The network client,
the self-encryption library and serialization are abstracted as oracles. -/

/-- Maximum number of concurrent chunks to be uploaded/retrieved for a file. -/
def CHUNKS_BATCH_MAX_SIZE : Nat := 5

/-- `self_encryption::ChunkInfo`: the destination hash names the encrypted
chunk on the network. -/
structure ChunkInfo where
  index : Nat
  dst_hash : XorName
deriving DecidableEq, Repr

/-- `self_encryption::EncryptedChunk`. -/
structure EncryptedChunk where
  index : Nat
  content : Bytes
deriving DecidableEq, Repr

/-- `sn_client` errors reachable from the embedded file APIs. -/
inductive FilesError where
  | NotEnoughChunksRetrieved (expected : Nat) (retrieved : Nat)
      (missing_chunks : List XorName)
deriving DecidableEq, Repr

/-- Split a list into the successive batches of `CHUNKS_BATCH_MAX_SIZE`
elements processed by the upload/retrieval loops (`chunks_info.chunks(..)`). -/
def toBatches {α : Type} (l : List α) : List (List α) :=
  match l with
  | [] => []
  | x :: xs =>
    (x :: xs.take (CHUNKS_BATCH_MAX_SIZE - 1)) ::
      toBatches (xs.drop (CHUNKS_BATCH_MAX_SIZE - 1))
termination_by l.length
decreasing_by simp [List.length_drop]; omega

/-- One spawned fetch task of `try_get_chunks`: `client.get_chunk` on the
destination hash, packaging a success as an `EncryptedChunk`; the oracle's
`none` stands for any per-chunk retrieval error. -/
def fetchOne (getChunk : XorName → Option Bytes) (chunk_info : ChunkInfo) :
    Option EncryptedChunk :=
  (getChunk chunk_info.dst_hash).map (fun c => ⟨chunk_info.index, c⟩)

/-- `try_get_chunks` (`file_apis.rs`): fetch in batches, swallow per-chunk
failures, and compact any shortfall into a single
`NotEnoughChunksRetrieved` error listing the missing destination hashes
(recomputed by hashing the retrieved contents with `XorName::from_content`,
modelled by the `fromContent` oracle). -/
def try_get_chunks (getChunk : XorName → Option Bytes)
    (fromContent : Bytes → XorName) (chunks_info : List ChunkInfo) :
    Except FilesError (List EncryptedChunk) :=
  let expected_count := chunks_info.length
  let retrieved_chunks :=
    ((toBatches chunks_info).map
      (fun batch => batch.filterMap (fetchOne getChunk))).flatten
  if expected_count > retrieved_chunks.length then
    let missing_chunks := chunks_info.filterMap (fun expected_info =>
      if retrieved_chunks.any (fun retrieved_chunk =>
          decide (fromContent retrieved_chunk.content = expected_info.dst_hash))
      then none
      else some expected_info.dst_hash)
    .error (.NotEnoughChunksRetrieved expected_count retrieved_chunks.length
      missing_chunks)
  else
    .ok retrieved_chunks

/-- Opaque stand-in for a `self_encryption::DataMap`. -/
abbrev DataMap := Nat

/-- Oracles for the client file APIs: the network fetch, the data-map
deserialization of `unpack_chunk` (`none` models any deserialization error,
i.e. the small-file case), and the `seek` path over a data map. -/
structure FilesEnv where
  getChunk : XorName → Except String Chunk
  unpack : Chunk → Option DataMap
  seekBytes : DataMap → Nat → Nat → Except String Bytes

/-- Outcome of a client read; `panicked` models a Rust panic. -/
inductive ReadResult where
  | ok (bytes : Bytes)
  | fail (err : String)
  | panicked
deriving DecidableEq, Repr

/-- `bytes::Bytes::split_to(at)`: returns the split-off prefix and leaves the
suffix in place; panics (`none`) when `at > len`. -/
def bytes_split_to (b : Bytes) (i : Nat) : Option (Bytes × Bytes) :=
  if i ≤ b.length then some (b.take i, b.drop i) else none

/-- `read_from` (`file_apis.rs`): fetch the head chunk; if it deserializes to
a data map, seek within the large file; otherwise treat it as a small file
and slice its bytes with `Bytes::split_to` and `truncate`. -/
def read_from (fe : FilesEnv) (address : XorName) (position length : Nat) :
    ReadResult :=
  match fe.getChunk address with
  | .error e => .fail e
  | .ok chunk =>
    match fe.unpack chunk with
    | some data_map =>
      match fe.seekBytes data_map position length with
      | .ok bytes => .ok bytes
      | .error e => .fail e
    | none =>
      match bytes_split_to chunk.value position with
      | none => .panicked
      | some (_, bytes) => .ok (bytes.take length)

/-! Concrete oracle instantiations used to exercise the model on closed
inputs. -/

/-- A concrete oracle environment: identity-like hashes, trivially accepted
signatures, and an empty network. -/
def baseEnv : Env where
  hash := fun b => b
  dbcIdBytes := fun i => [i]
  isFree := fun _ => true
  txHash := fun tx => [tx.fee.token]
  verifySpend := fun _ => true
  verifyRegister := fun _ => true
  mergeRegister := fun _ incoming => .ok incoming
  dbcAddrName := fun i => i
  vpp := fun _ _ _ _ => .ok 0
  netSpends := fun _ => some []
  checkParents := fun _ => none

/-- A concrete transaction with one nano paid and a free fee output. -/
def wTx1 : DbcTransaction :=
  { inputs := [], outputs := [], fee := { id := [], token := 1, root_hash := [] } }

/-- A concrete non-free transaction whose fee id matches the identity hash
of `root_hash ++ input id bytes`. -/
def wTx2 : DbcTransaction :=
  { inputs := [1], outputs := [], fee := { id := [7, 1], token := 5, root_hash := [7] } }

/-- A concrete signed spend over `wTx1`. -/
def wSpend1 : SignedSpend := { dbc_id := 0, spent_tx := wTx1, signature := [1] }

/-- A conflicting signed spend: same `dbc_id` as `wSpend1`, different
spent transaction. -/
def wSpend2 : SignedSpend :=
  { dbc_id := 0,
    spent_tx := { inputs := [], outputs := [], fee := { id := [], token := 2, root_hash := [] } },
    signature := [2] }

/-- A concrete chunk-fetch oracle that fails exactly on name `0`. -/
def w8Get (x : XorName) : Option Bytes :=
  if x = 0 then none else some [x]

/-- A content-hash oracle consistent with `w8Get`. -/
def w8From (c : Bytes) : XorName :=
  c.headD 0

/-- Concrete client oracles: the chunk at address `0` is a small file with
three bytes of content. -/
def wFiles : FilesEnv where
  getChunk := fun a =>
    if a = 0 then .ok { name := 0, value := [10, 11, 12] } else .error "not found"
  unpack := fun _ => none
  seekBytes := fun _ _ _ => .error "seek"

/-! Claim theorems. -/

/-- C1: for a transaction with a correct fee-output id and an audit trail and
path that validate against `tx.fee.root_hash` yielding leaf index `i`,
`verify_fee_output_and_proof` succeeds when `tx.fee.token > i` and otherwise
fails with `PaymentProofInsufficientAmount` carrying `paid = tx.fee.token`
and `expected = i + 1`. -/
theorem claim_C1 (env : Env) (addr_name : XorName) (tx : DbcTransaction)
    (audit_trail : List Bytes) (path : List Nat) (i : Nat)
    (hfee : verify_fee_output_id env tx = .ok ())
    (hvpp : env.vpp addr_name tx.fee.root_hash audit_trail path = .ok i) :
    (i < tx.fee.token →
      verify_fee_output_and_proof env addr_name tx audit_trail path = .ok ())
    ∧ (tx.fee.token ≤ i →
      verify_fee_output_and_proof env addr_name tx audit_trail path =
        .error (.PaymentProofInsufficientAmount tx.fee.token (i + 1))) := by
  unfold verify_fee_output_and_proof
  rw [hfee, hvpp]
  constructor
  · intro h
    simp [Nat.not_le.mpr h]
  · intro h
    simp [h]

/-- Witness for C1 at a concrete free-fee transaction paying one nano for
leaf index zero. -/
theorem claim_C1_witness :
    verify_fee_output_and_proof baseEnv 0 wTx1 [] [] = .ok () :=
  (claim_C1 baseEnv 0 wTx1 [] [] 0 rfl rfl).1 (by decide)

/-- C2: for a non-free fee, `verify_fee_output_id` succeeds exactly when
`tx.fee.id` is the hash of `root_hash` followed by the concatenated input
DBC id bytes; any failure is `PaymentProofInvalidFeeOutput(tx.fee.id)`; a
free fee always passes. -/
theorem claim_C2 (env : Env) (tx : DbcTransaction) :
    (env.isFree tx.fee = true → verify_fee_output_id env tx = .ok ())
    ∧ (env.isFree tx.fee = false →
        ((verify_fee_output_id env tx = .ok ()) ↔
          tx.fee.id =
            env.hash (tx.fee.root_hash ++ (tx.inputs.map env.dbcIdBytes).flatten))
        ∧ (verify_fee_output_id env tx ≠ .ok () →
            verify_fee_output_id env tx =
              .error (.PaymentProofInvalidFeeOutput tx.fee.id))) := by
  unfold verify_fee_output_id
  cases h : env.isFree tx.fee with
  | true => simp [h]
  | false =>
    simp only [h]
    refine ⟨fun hc => by simp at hc, fun _ => ?_⟩
    by_cases hid :
        tx.fee.id = env.hash (tx.fee.root_hash ++ (tx.inputs.map env.dbcIdBytes).flatten)
    · simp [hid]
    · simp [hid]

/-- Witness for C2 at a concrete non-free transaction whose fee id matches
the recomputed hash. -/
theorem claim_C2_witness :
    verify_fee_output_id { baseEnv with isFree := fun _ => false } wTx2 = .ok () :=
  (((claim_C2 { baseEnv with isFree := fun _ => false } wTx2).2 rfl).1).mpr (by decide)

/-- C3: a spend PUT whose list is longer than `MAX_SIGNED_SPENDS_LENGTH = 2`
is rejected with `MaxNumberOfSpendsExceeded` and the local store is left
untouched. -/
theorem claim_C3 (env : Env) (store : Store) (signed_spends : List SignedSpend)
    (h : signed_spends.length > MAX_SIGNED_SPENDS_LENGTH) :
    validate_and_store_spends env store signed_spends =
      (.error .MaxNumberOfSpendsExceeded, store) := by
  unfold validate_and_store_spends
  simp [h]

/-- Witness for C3: three signed spends are rejected without a write. -/
theorem claim_C3_witness :
    [wSpend1, wSpend1, wSpend1].length > MAX_SIGNED_SPENDS_LENGTH
    ∧ validate_and_store_spends baseEnv [] [wSpend1, wSpend1, wSpend1] =
        (.error .MaxNumberOfSpendsExceeded, []) :=
  ⟨by decide, claim_C3 baseEnv [] [wSpend1, wSpend1, wSpend1] (by decide)⟩

/-- C5: a chunk PUT whose key is already present locally returns
`DataAlreadyPresent` with the store unchanged, and the outcome is the same
for every oracle environment and every attached payment, so no payment
validation (spend fetch or proof check) can influence it. -/
theorem claim_C5 (env : Env) (store : Store) (chunk_with_payment : ChunkWithPayment)
    (h : (Store.get store chunk_with_payment.chunk.name).isSome) :
    validate_and_store_chunk env store chunk_with_payment =
      (.ok .DataAlreadyPresent, store)
    ∧ ∀ (env' : Env) (payment' : Option PaymentProof),
        validate_and_store_chunk env' store
          { chunk := chunk_with_payment.chunk, payment := payment' } =
          (.ok .DataAlreadyPresent, store) := by
  constructor
  · unfold validate_and_store_chunk
    simp [h]
  · intro env' payment'
    unfold validate_and_store_chunk
    simp [h]

/-- Witness for C5: re-submitting a stored chunk with a payment attached
short-circuits. -/
theorem claim_C5_witness :
    validate_and_store_chunk baseEnv
      [(3, RecordValue.chunkV { chunk := { name := 3, value := [] }, payment := none })]
      { chunk := { name := 3, value := [9] },
        payment := some { spent_ids := [0], audit_trail := [], path := [] } } =
      (.ok .DataAlreadyPresent,
       [(3, RecordValue.chunkV { chunk := { name := 3, value := [] }, payment := none })]) :=
  (claim_C5 baseEnv
      [(3, RecordValue.chunkV { chunk := { name := 3, value := [] }, payment := none })]
      { chunk := { name := 3, value := [9] },
        payment := some { spent_ids := [0], audit_trail := [], path := [] } }
      (by decide)).1

/-- C9: a `DbcSpend` record whose payload is the empty spend list never
trips the key-coherence check (it is vacuously true), and the PUT instead
fails inside `validate_and_store_spends` with `SpendNotStored`, writing
nothing. -/
theorem claim_C9 (env : Env) (store : Store) (record : Record)
    (h : record.value = .spendsV []) :
    validate_and_store_record env store record =
      (.error (.SpendNotStored "Spend was not provided"), store)
    ∧ (validate_and_store_record env store record).1 ≠
        .error .RecordKeyMismatch := by
  have hmain : validate_and_store_record env store record =
      (.error (.SpendNotStored "Spend was not provided"), store) := by
    unfold validate_and_store_record
    rw [h]
    simp [validate_and_store_spends, MAX_SIGNED_SPENDS_LENGTH]
  exact ⟨hmain, by rw [hmain]; simp⟩

/-- Witness for C9: an empty spend list under an arbitrary key. -/
theorem claim_C9_witness :
    validate_and_store_record baseEnv [] { key := 42, value := .spendsV [] } =
      (.error (.SpendNotStored "Spend was not provided"), []) :=
  (claim_C9 baseEnv [] { key := 42, value := .spendsV [] } rfl).1

/-- C10: on the small-file path (the head chunk is not a data map),
`read_from` panics via `Bytes::split_to` whenever `position` exceeds the
chunk's byte length, and is panic-free with the expected slice otherwise. -/
theorem claim_C10 (fe : FilesEnv) (address : XorName) (position length : Nat)
    (chunk : Chunk)
    (hget : fe.getChunk address = .ok chunk)
    (hsmall : fe.unpack chunk = none) :
    (chunk.value.length < position →
      read_from fe address position length = .panicked)
    ∧ (position ≤ chunk.value.length →
      read_from fe address position length =
        .ok ((chunk.value.drop position).take length)) := by
  unfold read_from
  simp only [hget, hsmall]
  constructor
  · intro h
    simp [bytes_split_to, Nat.not_le.mpr h]
  · intro h
    simp [bytes_split_to, h]

/-- Witness for C10: reading position 5 of a three-byte small file panics. -/
theorem claim_C10_witness :
    read_from wFiles 0 5 1 = .panicked :=
  (claim_C10 wFiles 0 5 1 { name := 0, value := [10, 11, 12] } rfl rfl).1 (by decide)

/-- C6: for each record kind, a key that does not match the one derived from
the deserialized payload makes `validate_and_store_record` fail with
`RecordKeyMismatch` and leaves the store unchanged: a chunk record whose key
differs from the chunk name, a register record whose key differs from the
register address name, and a spend record containing some element whose
DBC address does not derive the record key. -/
theorem claim_C6 (env : Env) (store : Store) (record : Record) :
    (∀ chunk_with_payment, record.value = .chunkV chunk_with_payment →
      record.key ≠ chunk_with_payment.chunk.name →
      validate_and_store_record env store record =
        (.error .RecordKeyMismatch, store))
    ∧ (∀ signed_spends, record.value = .spendsV signed_spends →
      (∃ spend ∈ signed_spends, record.key ≠ env.dbcAddrName spend.dbc_id) →
      validate_and_store_record env store record =
        (.error .RecordKeyMismatch, store))
    ∧ (∀ register, record.value = .registerV register →
      record.key ≠ register.name →
      validate_and_store_record env store record =
        (.error .RecordKeyMismatch, store)) := by
  refine ⟨fun cwp hv hk => ?_, fun spends hv hk => ?_, fun reg hv hk => ?_⟩
  · unfold validate_and_store_record
    simp only [hv]
    rw [if_pos hk]
  · unfold validate_and_store_record
    simp only [hv]
    obtain ⟨spend, hmem, hne⟩ := hk
    have hall : ¬ spends.all
        (fun spend => decide (record.key = env.dbcAddrName spend.dbc_id)) = true := by
      simp only [List.all_eq_true, decide_eq_true_eq]
      exact fun hall => hne (hall spend hmem)
    rw [if_pos hall]
  · unfold validate_and_store_record
    simp only [hv]
    rw [if_pos hk]

/-- Witness for C6: a chunk record stored under the wrong key is rejected
without a write. -/
theorem claim_C6_witness :
    validate_and_store_record baseEnv []
      { key := 1, value := .chunkV { chunk := { name := 2, value := [] }, payment := none } } =
      (.error .RecordKeyMismatch, []) :=
  (claim_C6 baseEnv []
      { key := 1,
        value := .chunkV { chunk := { name := 2, value := [] }, payment := none } }).1
    { chunk := { name := 2, value := [] }, payment := none } rfl (by decide)

/-- C7: an incoming register that verifies and whose key is held locally as
a register yields `DataAlreadyPresent` without a write exactly when the
verified merge of the local copy with it equals the local copy, and
otherwise stores the merged register and reports `StoredSuccessfully`. -/
theorem claim_C7 (env : Env) (store : Store) (register local_register merged : SignedRegister)
    (hverify : env.verifyRegister register = true)
    (hlocal : Store.get store register.name = some (RecordValue.registerV local_register))
    (hmerge : env.mergeRegister local_register register = .ok merged) :
    (merged = local_register →
      validate_and_store_register env store register =
        (.ok .DataAlreadyPresent, store))
    ∧ (merged ≠ local_register →
      validate_and_store_register env store register =
        (.ok .StoredSuccessfully,
         Store.put store register.name (RecordValue.registerV merged))) := by
  have hpresent : (Store.get store register.name).isSome = true := by
    rw [hlocal]; rfl
  constructor
  · intro heq
    subst heq
    unfold validate_and_store_register register_validation
    simp [hpresent, hverify, hlocal, hmerge]
  · intro hne
    unfold validate_and_store_register register_validation
    simp [hpresent, hverify, hlocal, hmerge, hne]

/-- Witness for C7: merging a genuinely new register into the local copy
stores the merge result. -/
theorem claim_C7_witness :
    validate_and_store_register baseEnv [(5, RecordValue.registerV { name := 5, data := 0 })]
      { name := 5, data := 1 } =
      (.ok .StoredSuccessfully,
       Store.put [(5, RecordValue.registerV { name := 5, data := 0 })] 5
         (RecordValue.registerV { name := 5, data := 1 })) :=
  (claim_C7 baseEnv [(5, RecordValue.registerV { name := 5, data := 0 })]
      { name := 5, data := 1 } { name := 5, data := 0 } { name := 5, data := 1 }
      rfl rfl rfl).2 (by decide)

/-- `verify_fee_output_id` either succeeds or fails with
`PaymentProofInvalidFeeOutput` on the transaction's fee id. -/
theorem verify_fee_output_id_shape (env : Env) (tx : DbcTransaction) :
    verify_fee_output_id env tx = .ok () ∨
    verify_fee_output_id env tx =
      .error (.PaymentProofInvalidFeeOutput tx.fee.id) := by
  unfold verify_fee_output_id
  by_cases hfree : env.isFree tx.fee
  · left; simp [hfree]
  · by_cases hid : tx.fee.id =
      env.hash (tx.fee.root_hash ++ (tx.inputs.map env.dbcIdBytes).flatten)
    · left; simp [hfree, hid]
    · right; simp [hfree, hid]

/-- `merge_with_local_spends` never reports a double-spend conflict. -/
theorem merge_with_local_spends_no_double_spend (env : Env) (store : Store)
    (signed_spends : List SignedSpend) (dbc_id : DbcId) (present_locally : Bool)
    (w1 w2 : SignedSpend) :
    merge_with_local_spends env store signed_spends dbc_id present_locally ≠
      .error (.DoubleSpendAttempt w1 w2) := by
  intro h
  unfold merge_with_local_spends at h
  split at h
  · split at h
    · simp at h
    · split at h <;> simp at h
    · simp at h
  · simp at h

/-- `dispatch_spends` never reports a double-spend conflict. -/
theorem dispatch_spends_no_double_spend (env : Env) (dbc_id : DbcId)
    (spends : List SignedSpend) (w1 w2 : SignedSpend) :
    dispatch_spends env dbc_id spends ≠ .error (.DoubleSpendAttempt w1 w2) := by
  intro h
  unfold dispatch_spends at h
  split at h
  · simp at h
  · rename_i s
    split at h
    · split at h
      · rename_i e heq
        injection h with h'
        subst h'
        rcases verify_fee_output_id_shape env s.spent_tx with hs | hs <;>
          rw [hs] at heq <;> simp at heq
      · split at h
        · simp at h
        · split at h <;> simp at h
    · simp at h
  · simp at h

/-- `signed_spend_validation` never reports a double-spend conflict itself:
every error it produces is of a different shape, so a `DoubleSpendAttempt`
from `validate_and_store_spends` can only arise after the write. -/
theorem signed_spend_validation_no_double_spend (env : Env) (store : Store)
    (signed_spends : List SignedSpend) (dbc_id : DbcId) (present_locally : Bool)
    (w1 w2 : SignedSpend) :
    signed_spend_validation env store signed_spends dbc_id present_locally ≠
      .error (.DoubleSpendAttempt w1 w2) := by
  intro h
  unfold signed_spend_validation at h
  split at h
  · rename_i e heq
    injection h with h'
    subst h'
    exact merge_with_local_spends_no_double_spend env store signed_spends dbc_id
      present_locally w1 w2 heq
  · simp at h
  · rename_i spends' heq
    exact dispatch_spends_no_double_spend env dbc_id spends' w1 w2 h

/-- C4: whenever `validate_and_store_spends` reports
`DoubleSpendAttempt(w1, w2)`, the aggregated spend record whose first two
witnesses are `w1` and `w2` has already been written to the local record
store, so the conflict evidence survives the error path. -/
theorem claim_C4 (env : Env) (store : Store) (signed_spends : List SignedSpend)
    (w1 w2 : SignedSpend) (outcome : Except ProtocolError CmdOk) (store' : Store)
    (hrun : validate_and_store_spends env store signed_spends = (outcome, store'))
    (hout : outcome = .error (.DoubleSpendAttempt w1 w2)) :
    ∃ key validated,
      store' = Store.put store key (RecordValue.spendsV validated)
      ∧ Store.get store' key = some (RecordValue.spendsV validated)
      ∧ validated.head? = some w1 ∧ validated.tail.head? = some w2 := by
  subst hout
  unfold validate_and_store_spends at hrun
  split at hrun
  · simp at hrun
  · split at hrun
    · simp at hrun
    · split at hrun
      · split at hrun
        · rename_i e heq
          simp only [Prod.mk.injEq, Except.error.injEq] at hrun
          rw [hrun.1] at heq
          exact absurd heq (signed_spend_validation_no_double_spend _ _ _ _ _ w1 w2)
        · simp at hrun
        · split at hrun
          · rename_i spend_one spend_two rest heq
            simp only [Prod.mk.injEq, Except.error.injEq,
              ProtocolError.DoubleSpendAttempt.injEq] at hrun
            obtain ⟨⟨h1, h2⟩, hstore⟩ := hrun
            refine ⟨_, spend_one :: spend_two :: rest, hstore.symm, ?_,
              by simp [h1], by simp [h2]⟩
            rw [← hstore]
            simp [Store.put, Store.get]
          · simp at hrun
      · simp at hrun

/-- Witness for C4: two conflicting witnesses for the same DBC id produce a
`DoubleSpendAttempt` whose pair is already persisted in the returned store. -/
theorem claim_C4_witness :
    (validate_and_store_spends baseEnv [] [wSpend1, wSpend2]).1 =
      .error (.DoubleSpendAttempt wSpend1 wSpend2)
    ∧ ∃ key validated,
        (validate_and_store_spends baseEnv [] [wSpend1, wSpend2]).2 =
          Store.put [] key (RecordValue.spendsV validated)
        ∧ Store.get (validate_and_store_spends baseEnv [] [wSpend1, wSpend2]).2 key =
            some (RecordValue.spendsV validated)
        ∧ validated.head? = some wSpend1 ∧ validated.tail.head? = some wSpend2 :=
  ⟨rfl,
   claim_C4 baseEnv [] [wSpend1, wSpend2] wSpend1 wSpend2
     (validate_and_store_spends baseEnv [] [wSpend1, wSpend2]).1
     (validate_and_store_spends baseEnv [] [wSpend1, wSpend2]).2
     rfl rfl⟩

/-- Batching does not change which fetches succeed: the concatenated batch
results equal a single pass over the whole request list. -/
theorem toBatches_filterMap {α β : Type} (f : α → Option β) (l : List α) :
    ((toBatches l).map (fun batch => batch.filterMap f)).flatten =
      l.filterMap f := by
  induction l using toBatches.induct with
  | case1 => simp [toBatches]
  | case2 x xs ih =>
    rw [toBatches]
    simp only [List.map_cons, List.flatten_cons, ih, ← List.filterMap_append]
    rw [List.cons_append, List.take_append_drop]

/-- If some element maps to `none`, strictly fewer results are kept. -/
theorem length_filterMap_lt_of_none {α β : Type} (f : α → Option β) :
    ∀ l : List α, (∃ a ∈ l, f a = none) →
      (l.filterMap f).length < l.length := by
  intro l
  induction l with
  | nil => intro h; simp at h
  | cons x xs ih =>
    intro h
    rw [List.filterMap_cons]
    cases hfx : f x with
    | none =>
      simp only [List.length_cons]
      exact Nat.lt_succ_of_le (List.length_filterMap_le f xs)
    | some b =>
      simp only [List.length_cons]
      apply Nat.succ_lt_succ
      apply ih
      obtain ⟨a, ha, hnone⟩ := h
      rcases List.mem_cons.mp ha with rfl | hmem
      · rw [hfx] at hnone; cases hnone
      · exact ⟨a, hmem, hnone⟩

/-- If every element maps to `some`, all results are kept. -/
theorem length_filterMap_eq_of_all_some {α β : Type} (f : α → Option β) :
    ∀ l : List α, (∀ a ∈ l, (f a).isSome) →
      (l.filterMap f).length = l.length := by
  intro l
  induction l with
  | nil => intro _; rfl
  | cons x xs ih =>
    intro h
    rw [List.filterMap_cons]
    cases hfx : f x with
    | none =>
      have := h x (by simp)
      rw [hfx] at this
      cases this
    | some b =>
      simp only [List.length_cons]
      rw [ih (fun a ha => h a (by simp [ha]))]

/-- Dropping the elements whose fetch succeeded is the same as keeping the
destination hashes of the failed ones. -/
theorem filterMap_if_eq_filter_map (g : XorName → Option Bytes) :
    ∀ chunks_info : List ChunkInfo,
      chunks_info.filterMap (fun expected_info =>
        if (g expected_info.dst_hash).isSome then none
        else some expected_info.dst_hash) =
      (chunks_info.filter (fun ci => (g ci.dst_hash).isNone)).map
        (fun ci => ci.dst_hash) := by
  intro chunks_info
  induction chunks_info with
  | nil => rfl
  | cons x xs ih =>
    rw [List.filterMap_cons, List.filter_cons]
    cases hx : g x.dst_hash with
    | none => simp [hx, ih]
    | some c => simp [hx, ih]

/-- Under a content-valid fetch oracle, a requested name is matched by some
retrieved chunk's content hash exactly when its own fetch succeeded. -/
theorem retrieved_any_iff (getChunk : XorName → Option Bytes)
    (fromContent : Bytes → XorName) (chunks_info : List ChunkInfo)
    (hvalid : ∀ x c, getChunk x = some c → fromContent c = x)
    (ei : ChunkInfo) (hei : ei ∈ chunks_info) :
    (chunks_info.filterMap (fetchOne getChunk)).any
      (fun rc => decide (fromContent rc.content = ei.dst_hash)) =
      (getChunk ei.dst_hash).isSome := by
  cases hsome : getChunk ei.dst_hash with
  | some c =>
    simp only [Option.isSome_some]
    rw [List.any_eq_true]
    refine ⟨⟨ei.index, c⟩, List.mem_filterMap.mpr ⟨ei, hei, ?_⟩, ?_⟩
    · simp [fetchOne, hsome]
    · simp [hvalid _ _ hsome]
  | none =>
    simp only [Option.isSome_none]
    rw [List.any_eq_false]
    intro rc hrc
    obtain ⟨cj, hcj, hfo⟩ := List.mem_filterMap.mp hrc
    simp only [fetchOne] at hfo
    cases hg : getChunk cj.dst_hash with
    | none => rw [hg] at hfo; cases hfo
    | some cbytes =>
      rw [hg] at hfo
      simp at hfo
      subst hfo
      simp only [decide_eq_false_iff_not]
      intro heqn
      rw [hvalid _ _ hg] at heqn
      have heq2 := of_decide_eq_true heqn
      rw [heq2] at hg
      rw [hg] at hsome
      cases hsome

/-- C8: `try_get_chunks` returns `NotEnoughChunksRetrieved` exactly when
some requested chunk could not be fetched, with `expected` the number of
requests, `retrieved` the number of successes, and `missing` the destination
hashes of the failed requests (per-chunk failure causes are compacted away);
when everything is fetched it returns the retrieved chunks. -/
theorem claim_C8 (getChunk : XorName → Option Bytes)
    (fromContent : Bytes → XorName) (chunks_info : List ChunkInfo)
    (hvalid : ∀ x c, getChunk x = some c → fromContent c = x) :
    ((∀ ci ∈ chunks_info, (getChunk ci.dst_hash).isSome) →
      try_get_chunks getChunk fromContent chunks_info =
        .ok (chunks_info.filterMap (fetchOne getChunk)))
    ∧ ((∃ ci ∈ chunks_info, getChunk ci.dst_hash = none) →
      try_get_chunks getChunk fromContent chunks_info =
        .error (.NotEnoughChunksRetrieved chunks_info.length
          (chunks_info.filterMap (fetchOne getChunk)).length
          ((chunks_info.filter (fun ci => (getChunk ci.dst_hash).isNone)).map
            (fun ci => ci.dst_hash)))) := by
  have hretr := toBatches_filterMap (fetchOne getChunk) chunks_info
  constructor
  · intro hall
    unfold try_get_chunks
    rw [hretr]
    have hlen : (chunks_info.filterMap (fetchOne getChunk)).length =
        chunks_info.length :=
      length_filterMap_eq_of_all_some (fetchOne getChunk) chunks_info
        (fun a ha => by simpa [fetchOne] using hall a ha)
    rw [if_neg (by rw [hlen]; exact Nat.lt_irrefl _)]
  · intro hfail
    obtain ⟨ci, hmem, hnone⟩ := hfail
    unfold try_get_chunks
    rw [hretr]
    have hlt : (chunks_info.filterMap (fetchOne getChunk)).length <
        chunks_info.length :=
      length_filterMap_lt_of_none (fetchOne getChunk) chunks_info
        ⟨ci, hmem, by simp [fetchOne, hnone]⟩
    rw [if_pos hlt]
    have hmiss : chunks_info.filterMap (fun expected_info =>
        if (chunks_info.filterMap (fetchOne getChunk)).any
            (fun retrieved_chunk =>
              decide (fromContent retrieved_chunk.content = expected_info.dst_hash))
        then none else some expected_info.dst_hash) =
        (chunks_info.filter (fun ci => (getChunk ci.dst_hash).isNone)).map
          (fun ci => ci.dst_hash) := by
      rw [List.filterMap_congr (g := fun expected_info =>
        if (getChunk expected_info.dst_hash).isSome then none
        else some expected_info.dst_hash)]
      · exact filterMap_if_eq_filter_map getChunk chunks_info
      · intro a ha
        rw [retrieved_any_iff getChunk fromContent chunks_info hvalid a ha]
    rw [hmiss]

/-- Witness for C8: one of two requested chunks fails to fetch, yielding the
compacted error with the missing name. -/
theorem claim_C8_witness :
    try_get_chunks w8Get w8From [⟨0, 0⟩, ⟨1, 1⟩] =
      .error (.NotEnoughChunksRetrieved 2 1 [0]) := by
  have hvalid : ∀ x c, w8Get x = some c → w8From c = x := by
    intro x c h
    unfold w8Get at h
    by_cases hx : x = 0
    · rw [if_pos hx] at h; cases h
    · rw [if_neg hx] at h
      injection h with h'
      rw [← h']
      rfl
  have h := (claim_C8 w8Get w8From [⟨0, 0⟩, ⟨1, 1⟩] hvalid).2
    ⟨⟨0, 0⟩, by simp, rfl⟩
  rw [h]
  rfl

end SafeNetwork
